import Mathlib

/-!
Verification of the image-processing pipeline of
`Dataset_Pre-processor_Streamlit.py`.

This file gives a shallow embedding of the pure computational content of
the program's image operations (`remove_bg_and_square`, `apply_brightness`,
`resize_image`, `save_image`, `process_one` and the batch processing loop),
and proves the properties the specification states about them.

Modelling conventions:
* An image is its PIL mode string, its pixel dimensions, and a symbolic
  pixel buffer (`PixData`): every external pixel-level operation of the
  PIL / rembg libraries is recorded as a constructor, so two images are
  pixel-for-pixel equal exactly when their values are equal, and an
  operation that "passes the image through unchanged" returns the very
  same value.
* Python floats are modelled by rationals; Python's `round` (round half
  to even) is `pyRound`; Python's integer `//` is `Int.fdiv`.
* Per-file exceptions are modelled by `Except String`; the image decoder
  (`Image.open`) is a parameter so that failing files can be represented.
-/

/-- Python `round` on a rational: round half to even (banker's rounding),
as used by `int(round(...))` in the source. -/
def pyRound (q : ℚ) : ℤ :=
  if q - (⌊q⌋ : ℚ) < 1/2 then ⌊q⌋
  else if 1/2 < q - (⌊q⌋ : ℚ) then ⌊q⌋ + 1
  else if ⌊q⌋ % 2 = 0 then ⌊q⌋ else ⌊q⌋ + 1

/-- Symbolic pixel content: a free model in which each pixel-level
operation performed by the PIL / rembg libraries is recorded as a node.
Two buffers hold the same pixels exactly when they are equal. -/
inductive PixData where
  | source : Nat → PixData
  | removedBg : PixData → PixData
  | expanded : PixData → Nat → List Nat → PixData
  | resampled : PixData → Nat → Nat → PixData
  | flat : String → Nat → Nat → List Nat → PixData
  | pasted : PixData → PixData → ℤ → ℤ → Bool → PixData
  | alphaComposited : PixData → PixData → PixData
  | converted : PixData → String → PixData
  | cropped : PixData → ℤ → ℤ → ℤ → ℤ → PixData
  | enhanced : PixData → ℚ → PixData
deriving DecidableEq, Repr

/-- An RGBA color 4-tuple (r, g, b, a); mirrors the Python tuples such as
`bg_rgba`, with `a` playing the role of `bg_rgba[3]`. -/
structure RGBATuple where
  r : Nat
  g : Nat
  b : Nat
  a : Nat
deriving DecidableEq, Repr

/-- A decoded raster image: PIL mode string, pixel dimensions, and the
symbolic pixel buffer. -/
structure Img where
  mode : String
  width : Nat
  height : Nat
  data : PixData
deriving DecidableEq, Repr

/-- `img.convert(mode)`: PIL mode conversion; keeps the dimensions. -/
def Img.convert (img : Img) (m : String) : Img :=
  { mode := m, width := img.width, height := img.height,
    data := .converted img.data m }

/-- `img.resize((w, h), Image.LANCZOS)`: resampling to the given size. -/
def Img.resize (img : Img) (w h : Nat) : Img :=
  { mode := img.mode, width := w, height := h,
    data := .resampled img.data w h }

/-- `Image.new(mode, (w, h), fill)`. -/
def imageNew (m : String) (w h : Nat) (fill : List Nat) : Img :=
  { mode := m, width := w, height := h, data := .flat m w h fill }

/-- `canvas.paste(im, (ox, oy), mask)`; `masked = true` records that the
pasted image itself was passed as its own alpha mask.  Keeps the canvas
size and mode. -/
def Img.paste (canvas : Img) (im : Img) (ox oy : ℤ) (masked : Bool) : Img :=
  { canvas with data := .pasted canvas.data im.data ox oy masked }

/-- `bg.alpha_composite(im)`: keeps the size and mode of `bg`. -/
def Img.alpha_composite (bg : Img) (im : Img) : Img :=
  { bg with data := .alphaComposited bg.data im.data }

/-- `img.crop((l, t, r, b))`: the result has size (r - l, b - t). -/
def Img.crop (img : Img) (l t r b : ℤ) : Img :=
  { mode := img.mode, width := (r - l).toNat, height := (b - t).toNat,
    data := .cropped img.data l t r b }

/-- `ImageOps.expand(img, border=pad, fill)`: adds `pad` pixels of `fill`
on each of the four sides. -/
def imageOpsExpand (img : Img) (pad : Nat) (fill : List Nat) : Img :=
  { mode := img.mode, width := img.width + 2 * pad,
    height := img.height + 2 * pad, data := .expanded img.data pad fill }

/-- Model of the external `rembg.remove` call: subject isolation returns
an RGBA image with the same pixel dimensions as its input; its pixel
content is kept symbolic. -/
def rembgRemove (img : Img) : Img :=
  { mode := "RGBA", width := img.width, height := img.height,
    data := .removedBg img.data }

/-- Model of `ImageEnhance.Brightness(img).enhance(factor)`: scales the
pixel luminance by `factor`; keeps mode and dimensions (PIL semantics). -/
def brightnessEnhance (img : Img) (factor : ℚ) : Img :=
  { img with data := .enhanced img.data factor }

/-- Lines 141-142 of `remove_bg_and_square`: optional uniform padding
with a fully transparent fill. -/
def padStep (pad : Nat) (out : Img) : Img :=
  if 0 < pad then imageOpsExpand out pad [0, 0, 0, 0] else out

/-- Lines 146-158 of `remove_bg_and_square`: the fixed-target square
branch (scale into the target if needed, then center on a
target x target transparent canvas). -/
def squareFixed (target : Nat) (no_upscale : Bool) (out : Img) : Img :=
  let w := out.width
  let h := out.height
  let scale : ℚ := min ((target : ℚ) / (w : ℚ)) ((target : ℚ) / (h : ℚ))
  let out :=
    if scale < 1 ∨ (1 < scale ∧ no_upscale = false) then
      let use_scale := if scale < 1 ∨ no_upscale = false then scale else 1
      let new_w := max 1 (pyRound ((w : ℚ) * use_scale)).toNat
      let new_h := max 1 (pyRound ((h : ℚ) * use_scale)).toNat
      if (new_w, new_h) ≠ (w, h) then out.resize new_w new_h else out
    else out
  let w2 := out.width
  let h2 := out.height
  let canvas := imageNew "RGBA" target target [0, 0, 0, 0]
  canvas.paste out (((target : ℤ) - (w2 : ℤ)).fdiv 2)
    (((target : ℤ) - (h2 : ℤ)).fdiv 2) true

/-- Lines 159-163 of `remove_bg_and_square`: the longest-side square
branch. -/
def squareAuto (out : Img) : Img :=
  let w := out.width
  let h := out.height
  let side := max w h
  let canvas := imageNew "RGBA" side side [0, 0, 0, 0]
  canvas.paste out (((side : ℤ) - (w : ℤ)).fdiv 2)
    (((side : ℤ) - (h : ℤ)).fdiv 2) true

/-- Lines 144-163 of `remove_bg_and_square`: optional square canvas
composition.  The Python truthiness guard `if square_size and
square_size > 0` is false both for `None` and for `0`. -/
def squareStep (square : Bool) (square_size : Option Nat) (no_upscale : Bool)
    (out : Img) : Img :=
  if square then
    match square_size with
    | some s => if 0 < s then squareFixed s no_upscale out else squareAuto out
    | none => squareAuto out
  else out

/-- Lines 165-173 of `remove_bg_and_square`: compositing onto the chosen
background.  Any `bg_mode` other than `"white"` / `"custom"` (in the app,
`"transparent"`) passes the image through unchanged. -/
def compositeBackground (bg_mode : String) (bg_rgba : RGBATuple) (out : Img) : Img :=
  if bg_mode = "white" then
    let bg := imageNew "RGBA" out.width out.height [255, 255, 255, 255]
    let bg := bg.alpha_composite out
    bg.convert "RGB"
  else if bg_mode = "custom" then
    let bg := imageNew "RGBA" out.width out.height
      [bg_rgba.r, bg_rgba.g, bg_rgba.b, bg_rgba.a]
    let bg := bg.alpha_composite out
    if bg_rgba.a = 255 then bg.convert "RGB" else bg
  else out

/-- `remove_bg_and_square` (source lines 127-175). -/
def remove_bg_and_square (img : Img) (bg_mode : String) (bg_rgba : RGBATuple)
    (pad : Nat) (square : Bool) (square_size : Option Nat)
    (no_upscale : Bool) : Img :=
  let img := if img.mode ≠ "RGBA" then img.convert "RGBA" else img
  let out := rembgRemove img
  let out := padStep pad out
  let out := squareStep square square_size no_upscale out
  compositeBackground bg_mode bg_rgba out

/-- `apply_brightness` (source lines 178-181). -/
def apply_brightness (img : Img) (factor : ℚ) : Img :=
  if factor = 1 then img else brightnessEnhance img factor

/-- The `make_canvas` closure inside `resize_image` (source lines
197-204). -/
def make_canvas (bg_mode : String) (bg_rgba : RGBATuple) (w h : Nat) : Img :=
  if bg_mode = "transparent" then imageNew "RGBA" w h [0, 0, 0, 0]
  else if bg_mode = "white" then imageNew "RGB" w h [255, 255, 255]
  else if bg_rgba.a = 255 then
    imageNew "RGB" w h [bg_rgba.r, bg_rgba.g, bg_rgba.b]
  else imageNew "RGBA" w h [bg_rgba.r, bg_rgba.g, bg_rgba.b, bg_rgba.a]

/-- `resize_image` (source lines 184-229). -/
def resize_image (img : Img) (enable : Bool) (w h : ℤ) (mode : String)
    (bg_mode : String) (bg_rgba : RGBATuple) : Img :=
  if enable = false ∨ w ≤ 0 ∨ h ≤ 0 then img
  else if mode = "stretch" then img.resize w.toNat h.toNat
  else
    let img := if img.mode ≠ "RGBA" then img.convert "RGBA" else img
    let src_w := img.width
    let src_h := img.height
    let srcAspect : ℚ := (src_w : ℚ) / (src_h : ℚ)
    let dstAspect : ℚ := (w : ℚ) / (h : ℚ)
    if mode = "keep_aspect_pad" then
      let nwh : Nat × Nat :=
        if dstAspect < srcAspect then
          (w.toNat, (pyRound ((w : ℚ) / srcAspect)).toNat)
        else ((pyRound ((h : ℚ) * srcAspect)).toNat, h.toNat)
      let resized := img.resize nwh.1 nwh.2
      let canvas := make_canvas bg_mode bg_rgba w.toNat h.toNat
      let ox := (w - (nwh.1 : ℤ)).fdiv 2
      let oy := (h - (nwh.2 : ℤ)).fdiv 2
      canvas.paste resized ox oy true
    else if mode = "keep_aspect_crop" then
      let nwh : Nat × Nat :=
        if srcAspect < dstAspect then
          (w.toNat, (pyRound ((w : ℚ) / srcAspect)).toNat)
        else ((pyRound ((h : ℚ) * srcAspect)).toNat, h.toNat)
      let resized := img.resize nwh.1 nwh.2
      let left := ((nwh.1 : ℤ) - w).fdiv 2
      let top := ((nwh.2 : ℤ) - h).fdiv 2
      let cropped := resized.crop left top (left + w) (top + h)
      if bg_mode = "white" ∨ (bg_mode = "custom" ∧ bg_rgba.a = 255) then
        cropped.convert "RGB"
      else cropped
    else img

/-- A filesystem path: directory components, base name, and extension
(with its leading dot), mirroring the `pathlib` operations the source
uses (`suffix`, `with_suffix`, `relative_to`, `/`). -/
structure FPath where
  dirs : List String
  base : String
  ext : String
deriving DecidableEq, Repr

/-- `path.with_suffix(s)`. -/
def FPath.with_suffix (p : FPath) (s : String) : FPath :=
  { p with ext := s }

/-- `Path()` — the empty path returned in `process_one`'s failure tuple. -/
def emptyFPath : FPath := { dirs := [], base := "", ext := "" }

/-- `path.relative_to(root)`: strips the root components, raising
`ValueError` when the path is not under the root. -/
def FPath.relative_to (p : FPath) (root : List String) : Except String FPath :=
  if root.isPrefixOf p.dirs then
    .ok { dirs := p.dirs.drop root.length, base := p.base, ext := p.ext }
  else .error (p.base ++ p.ext ++ " is not in the subpath of the input root")

/-- `out_root / rel`. -/
def joinUnder (out_root : List String) (rel : FPath) : FPath :=
  { dirs := out_root ++ rel.dirs, base := rel.base, ext := rel.ext }

/-- ASCII lowercasing of one character, as Python's `str.lower()` acts on
the extension strings involved here. -/
def asciiLowerChar (c : Char) : Char :=
  if 65 ≤ c.toNat ∧ c.toNat ≤ 90 then Char.ofNat (c.toNat + 32) else c

/-- Model of Python's `str.lower()` (`out_path.suffix.lower()`). -/
def strLower (s : String) : String := String.mk (s.data.map asciiLowerChar)

/-- `save_image` (source lines 232-241): returns the path actually
written — the source rebinds its local `out_path` before saving when the
extension cannot carry the image's mode.  The disk write itself is I/O
and is not modelled. -/
def save_image (out_img : Img) (out_path : FPath) : FPath :=
  if out_img.mode = "RGBA" then
    if strLower out_path.ext ∉ ([".png", ".webp"] : List String) then
      out_path.with_suffix ".png"
    else out_path
  else
    if strLower out_path.ext ∉ ([".jpg", ".jpeg", ".png", ".webp"] : List String) then
      out_path.with_suffix ".jpg"
    else out_path

/-- The keyword parameters of `process_one` (source lines 244-256). -/
structure ProcParams where
  operation : String
  bg_mode : String
  bg_rgba : RGBATuple
  pad : Nat
  square : Bool
  square_size : Option Nat
  no_upscale : Bool
  brightness : ℚ
  enable_resize : Bool
  target_w : ℤ
  target_h : ℤ
  resize_mode : String
deriving DecidableEq, Repr

/-- The operation dispatch of `process_one` (source lines 264-276):
which transforms are applied to the opened image, and in which order. -/
def applyOperation (p : ProcParams) (base : Img) : Img :=
  if p.operation = "bg_only" then
    remove_bg_and_square base p.bg_mode p.bg_rgba p.pad p.square
      p.square_size p.no_upscale
  else if p.operation = "resize_only" then
    resize_image base true p.target_w p.target_h p.resize_mode
      p.bg_mode p.bg_rgba
  else if p.operation = "brightness_only" then
    apply_brightness base p.brightness
  else
    let out := remove_bg_and_square base p.bg_mode p.bg_rgba p.pad p.square
      p.square_size p.no_upscale
    let out := apply_brightness out p.brightness
    if p.enable_resize then
      resize_image out true p.target_w p.target_h p.resize_mode
        p.bg_mode p.bg_rgba
    else out

/-- The body of `process_one`'s `try` block (source lines 258-278):
path resolution, decoding (`Image.open`, supplied as the fallible
`openImage` parameter), base-mode normalisation, and the transform
dispatch.  Produces the output path passed to `save_image` and the
transformed image, or the text of the exception raised. -/
def procOneBody (openImage : FPath → Except String Img) (in_path : FPath)
    (in_root out_root : List String) (p : ProcParams) :
    Except String (FPath × Img) :=
  match in_path.relative_to in_root with
  | .error e => .error e
  | .ok rel =>
    let out_path := (joinUnder out_root rel).with_suffix rel.ext
    match openImage in_path with
    | .error e => .error e
    | .ok im =>
      let base := if im.mode ∈ (["RGB", "RGBA"] : List String) then im
        else im.convert "RGBA"
      .ok (out_path, applyOperation p base)

/-- `process_one` (source lines 244-281): on success returns
`(in_path, out_path, True, "")` — note the source returns its local
`out_path` from before `save_image`'s own suffix rewriting — and on any
exception returns `(in_path, Path(), False, str(e))`. -/
def process_one (openImage : FPath → Except String Img) (in_path : FPath)
    (in_root out_root : List String) (p : ProcParams) :
    FPath × FPath × Bool × String :=
  match procOneBody openImage in_path in_root out_root p with
  | .ok (out_path, out) =>
    let _saved := save_image out out_path
    (in_path, out_path, true, "")
  | .error e => (in_path, emptyFPath, false, e)

/-- The success/failure accounting of the batch loop (source lines
605-633): each file is processed independently; a success increments the
counter, a failure appends `(img_path, err)` to the failure list, and
the loop always continues with the next file. -/
def runBatch (openImage : FPath → Except String Img)
    (in_root out_root : List String) (p : ProcParams) :
    List FPath → Nat × List (FPath × String)
  | [] => (0, [])
  | ip :: rest =>
    let r := process_one openImage ip in_root out_root p
    let acc := runBatch openImage in_root out_root p rest
    if r.2.2.1 then (acc.1 + 1, acc.2) else (acc.1, (ip, r.2.2.2) :: acc.2)

/-! ### Basic facts about the embedding -/

theorem pyRound_intCast (n : ℤ) : pyRound (n : ℚ) = n := by
  unfold pyRound
  rw [Int.floor_intCast]
  norm_num

theorem pyRound_le {q : ℚ} {n : ℤ} (h : q ≤ (n : ℚ)) : pyRound q ≤ n := by
  have hf : ⌊q⌋ ≤ n := by
    have h2 := Int.floor_le_floor h
    simpa using h2
  have hsucc : (1 : ℚ)/2 ≤ q - (⌊q⌋ : ℚ) → ⌊q⌋ + 1 ≤ n := by
    intro hfrac
    rcases eq_or_lt_of_le hf with heq | hlt
    · exfalso
      have h3 := Int.floor_le q
      rw [heq] at h3
      have hqn : q = (n : ℚ) := le_antisymm h h3
      have h0 : q - (⌊q⌋ : ℚ) = 0 := by
        rw [hqn, Int.floor_intCast]
        ring
      rw [h0] at hfrac
      norm_num at hfrac
    · exact hlt
  unfold pyRound
  by_cases h1 : q - (⌊q⌋ : ℚ) < 1/2
  · rw [if_pos h1]
    exact hf
  · rw [if_neg h1]
    have hfrac := le_of_not_lt h1
    by_cases h2 : (1 : ℚ)/2 < q - (⌊q⌋ : ℚ)
    · rw [if_pos h2]
      exact hsucc hfrac
    · rw [if_neg h2]
      by_cases h3 : ⌊q⌋ % 2 = 0
      · rw [if_pos h3]
        exact hf
      · rw [if_neg h3]
        exact hsucc hfrac

theorem make_canvas_width (m : String) (c : RGBATuple) (w h : Nat) :
    (make_canvas m c w h).width = w := by
  unfold make_canvas
  split_ifs <;> rfl

theorem make_canvas_height (m : String) (c : RGBATuple) (w h : Nat) :
    (make_canvas m c w h).height = h := by
  unfold make_canvas
  split_ifs <;> rfl

theorem compositeBackground_width (m : String) (c : RGBATuple) (o : Img) :
    (compositeBackground m c o).width = o.width := by
  unfold compositeBackground
  split_ifs <;> rfl

theorem compositeBackground_height (m : String) (c : RGBATuple) (o : Img) :
    (compositeBackground m c o).height = o.height := by
  unfold compositeBackground
  split_ifs <;> rfl

theorem squareFixed_width (t : Nat) (nu : Bool) (o : Img) :
    (squareFixed t nu o).width = t := rfl

theorem squareFixed_height (t : Nat) (nu : Bool) (o : Img) :
    (squareFixed t nu o).height = t := rfl

theorem squareAuto_width (o : Img) :
    (squareAuto o).width = max o.width o.height := rfl

theorem squareAuto_height (o : Img) :
    (squareAuto o).height = max o.width o.height := rfl

theorem squareStep_true_square (ss : Option Nat) (nu : Bool) (o : Img) :
    (squareStep true ss nu o).width = (squareStep true ss nu o).height := by
  cases ss with
  | none => rfl
  | some s =>
    by_cases hs : 0 < s
    · simp [squareStep, hs, squareFixed_width, squareFixed_height]
    · simp [squareStep, hs, squareAuto_width, squareAuto_height]

theorem remove_bg_and_square_eq (img : Img) (m : String) (c : RGBATuple)
    (pad : Nat) (sq : Bool) (ss : Option Nat) (nu : Bool) :
    remove_bg_and_square img m c pad sq ss nu =
      compositeBackground m c (squareStep sq ss nu (padStep pad
        (rembgRemove (if img.mode ≠ "RGBA" then img.convert "RGBA" else img)))) := rfl

/-! ### Claim theorems -/

/-- C4: the background compositing step determines the output color mode
from the BackgroundSpec: `"transparent"` passes the RGBA image through
unchanged (no compositing); `"white"` composites onto opaque white and
returns an RGB image; `"custom"` composites onto the given RGBA color,
returning RGB when the color's alpha is 255 and RGBA otherwise. -/
theorem compositeBackground_modes (c : RGBATuple) (out : Img) :
    compositeBackground "transparent" c out = out ∧
    compositeBackground "white" c out =
      ((imageNew "RGBA" out.width out.height
        [255, 255, 255, 255]).alpha_composite out).convert "RGB" ∧
    (compositeBackground "white" c out).mode = "RGB" ∧
    compositeBackground "custom" c out =
      (if c.a = 255 then
        ((imageNew "RGBA" out.width out.height
          [c.r, c.g, c.b, c.a]).alpha_composite out).convert "RGB"
       else (imageNew "RGBA" out.width out.height
          [c.r, c.g, c.b, c.a]).alpha_composite out) ∧
    (compositeBackground "custom" c out).mode =
      (if c.a = 255 then "RGB" else "RGBA") := by
  refine ⟨rfl, rfl, rfl, ?_, ?_⟩
  · unfold compositeBackground
    rw [if_neg (by decide), if_pos rfl]
  · unfold compositeBackground
    rw [if_neg (by decide), if_pos rfl]
    by_cases ha : c.a = 255
    · rw [if_pos ha, if_pos ha]
      rfl
    · rw [if_neg ha, if_neg ha]
      rfl

/-- C5: whenever square mode is enabled in `remove_bg_and_square` (fixed
size or longest side), the returned image is square: width = height. -/
theorem remove_bg_and_square_square_is_square (img : Img) (bg_mode : String)
    (c : RGBATuple) (pad : Nat) (square_size : Option Nat) (nu : Bool)
    (_hw : 0 < img.width) (_hh : 0 < img.height) :
    (remove_bg_and_square img bg_mode c pad true square_size nu).width =
      (remove_bg_and_square img bg_mode c pad true square_size nu).height := by
  rw [remove_bg_and_square_eq, compositeBackground_width,
    compositeBackground_height, squareStep_true_square]

theorem remove_bg_and_square_square_is_square_witness :
    (remove_bg_and_square (Img.mk "RGB" 3 2 (.source 0)) "white"
      (RGBATuple.mk 0 0 0 0) 0 true (some 4) true).width =
    (remove_bg_and_square (Img.mk "RGB" 3 2 (.source 0)) "white"
      (RGBATuple.mk 0 0 0 0) 0 true (some 4) true).height :=
  remove_bg_and_square_square_is_square (Img.mk "RGB" 3 2 (.source 0)) "white"
    (RGBATuple.mk 0 0 0 0) 0 (some 4) true (by decide) (by decide)

/-- C8: `apply_brightness` with factor 1.0 is the identity transform
(it returns the input image itself, hence pixel-for-pixel unchanged);
any other factor applies the brightness enhancer, which scales pixel
luminance by the factor. -/
theorem apply_brightness_identity_and_scale (img : Img) (factor : ℚ) :
    apply_brightness img 1 = img ∧
    (factor ≠ 1 → apply_brightness img factor = brightnessEnhance img factor) := by
  constructor
  · simp [apply_brightness]
  · intro hf
    simp [apply_brightness, hf]

theorem apply_brightness_identity_and_scale_witness :
    apply_brightness (Img.mk "RGB" 1 1 (.source 0)) 2 =
      brightnessEnhance (Img.mk "RGB" 1 1 (.source 0)) 2 :=
  (apply_brightness_identity_and_scale (Img.mk "RGB" 1 1 (.source 0)) 2).2
    (by norm_num)

/-- C9: the optional padding step expands the canvas by exactly `pad`
pixels on each of the four sides (dimensions grow by `2 * pad`) with a
fully transparent fill, and with `pad = 0` it leaves the image
unchanged. -/
theorem padStep_expands (o : Img) (pad : Nat) :
    (0 < pad →
      padStep pad o = Img.mk o.mode (o.width + 2 * pad) (o.height + 2 * pad)
        (.expanded o.data pad [0, 0, 0, 0])) ∧
    padStep 0 o = o := by
  constructor
  · intro hp
    rw [padStep, if_pos hp]
    rfl
  · rfl

theorem padStep_expands_witness :
    padStep 1 (Img.mk "RGBA" 2 3 (.source 0)) =
      Img.mk "RGBA" 4 5 (.expanded (.source 0) 1 [0, 0, 0, 0]) :=
  (padStep_expands (Img.mk "RGBA" 2 3 (.source 0)) 1).1 (by decide)

/-- C6: the operation dispatch of `process_one`: `"do_all"` applies
background removal/compositing first, then brightness, then resize (the
resize step only when resizing is enabled); each single operation applies
only that operation's transform. -/
theorem applyOperation_dispatch_order (p : ProcParams) (base : Img) :
    (p.operation = "do_all" →
      applyOperation p base =
        (if p.enable_resize then
          resize_image (apply_brightness (remove_bg_and_square base p.bg_mode
            p.bg_rgba p.pad p.square p.square_size p.no_upscale) p.brightness)
            true p.target_w p.target_h p.resize_mode p.bg_mode p.bg_rgba
         else apply_brightness (remove_bg_and_square base p.bg_mode p.bg_rgba
            p.pad p.square p.square_size p.no_upscale) p.brightness)) ∧
    (p.operation = "bg_only" →
      applyOperation p base = remove_bg_and_square base p.bg_mode p.bg_rgba
        p.pad p.square p.square_size p.no_upscale) ∧
    (p.operation = "resize_only" →
      applyOperation p base = resize_image base true p.target_w p.target_h
        p.resize_mode p.bg_mode p.bg_rgba) ∧
    (p.operation = "brightness_only" →
      applyOperation p base = apply_brightness base p.brightness) := by
  refine ⟨?_, ?_, ?_, ?_⟩ <;> intro hop <;>
    unfold applyOperation <;> rw [hop]
  · rw [if_neg (by decide), if_neg (by decide), if_neg (by decide)]
  · rw [if_pos rfl]
  · rw [if_neg (by decide), if_pos rfl]
  · rw [if_neg (by decide), if_neg (by decide), if_pos rfl]

theorem applyOperation_dispatch_order_witness :
    applyOperation (ProcParams.mk "brightness_only" "transparent"
      (RGBATuple.mk 0 0 0 0) 0 false none true 1 false 0 0 "keep_aspect_pad")
      (Img.mk "RGB" 1 1 (.source 0)) =
      apply_brightness (Img.mk "RGB" 1 1 (.source 0)) 1 :=
  ((applyOperation_dispatch_order (ProcParams.mk "brightness_only" "transparent"
      (RGBATuple.mk 0 0 0 0) 0 false none true 1 false 0 0 "keep_aspect_pad")
      (Img.mk "RGB" 1 1 (.source 0))).2.2.2) rfl

/-- C7: `save_image` chooses the output container from the presence of
transparency: an RGBA result keeps its extension only when it is
.png/.webp and is rewritten to .png otherwise (so an alpha-bearing image
is never saved under an alpha-incapable extension); a non-RGBA result
keeps .jpg/.jpeg/.png/.webp and is rewritten to .jpg otherwise.  The
path handed to `save_image` by `process_one` is the mirrored relative
path under the output root. -/
theorem save_image_format_choice (img : Img) (path : FPath)
    (openImage : FPath → Except String Img) (in_path : FPath)
    (in_root out_root : List String) (p : ProcParams) (rel : FPath) (im : Img) :
    (img.mode = "RGBA" →
      strLower (save_image img path).ext ∈ ([".png", ".webp"] : List String) ∧
      (strLower path.ext ∈ ([".png", ".webp"] : List String) →
        save_image img path = path) ∧
      (strLower path.ext ∉ ([".png", ".webp"] : List String) →
        save_image img path = path.with_suffix ".png")) ∧
    (img.mode ≠ "RGBA" →
      (strLower path.ext ∈ ([".jpg", ".jpeg", ".png", ".webp"] : List String) →
        save_image img path = path) ∧
      (strLower path.ext ∉ ([".jpg", ".jpeg", ".png", ".webp"] : List String) →
        save_image img path = path.with_suffix ".jpg")) ∧
    (in_path.relative_to in_root = .ok rel → openImage in_path = .ok im →
      procOneBody openImage in_path in_root out_root p =
        .ok ((joinUnder out_root rel).with_suffix rel.ext,
          applyOperation p (if im.mode ∈ (["RGB", "RGBA"] : List String) then im
            else im.convert "RGBA"))) := by
  refine ⟨?_, ?_, ?_⟩
  · intro hm
    by_cases hext : strLower path.ext ∈ ([".png", ".webp"] : List String)
    · refine ⟨?_, fun _ => ?_, fun hne => absurd hext hne⟩
      · rw [save_image, if_pos hm, if_neg (not_not_intro hext)]
        exact hext
      · rw [save_image, if_pos hm, if_neg (not_not_intro hext)]
    · refine ⟨?_, fun hmem => absurd hmem hext, fun _ => ?_⟩
      · rw [save_image, if_pos hm, if_pos hext]
        show strLower ".png" ∈ ([".png", ".webp"] : List String)
        decide
      · rw [save_image, if_pos hm, if_pos hext]
  · intro hm
    by_cases hext : strLower path.ext ∈ ([".jpg", ".jpeg", ".png", ".webp"] : List String)
    · refine ⟨fun _ => ?_, fun hne => absurd hext hne⟩
      rw [save_image, if_neg hm, if_neg (not_not_intro hext)]
    · refine ⟨fun hmem => absurd hmem hext, fun _ => ?_⟩
      rw [save_image, if_neg hm, if_pos hext]
  · intro hrel hopen
    unfold procOneBody
    rw [hrel, hopen]

theorem save_image_format_choice_witness :
    save_image (Img.mk "RGBA" 1 1 (.source 0)) (FPath.mk [] "a" ".jpg") =
      (FPath.mk [] "a" ".jpg").with_suffix ".png" :=
  ((save_image_format_choice (Img.mk "RGBA" 1 1 (.source 0))
      (FPath.mk [] "a" ".jpg") (fun _ => Except.error "") emptyFPath [] []
      (ProcParams.mk "bg_only" "transparent" (RGBATuple.mk 0 0 0 0) 0 false
        none true 1 false 0 0 "keep_aspect_pad")
      emptyFPath (Img.mk "RGB" 1 1 (.source 0))).1 rfl).2.2 (by decide)

/-- C10 counterexample: with an unrecognized fit mode, `resize_image`
does not return its input unchanged — an RGB input comes back converted
to RGBA (the function rebinds `img` to `img.convert("RGBA")` before the
mode dispatch and returns that conversion on fall-through). -/
theorem resize_image_unknown_mode_not_identity :
    resize_image (Img.mk "RGB" 2 3 (.source 0)) true 5 5 "bogus" "transparent"
      (RGBATuple.mk 0 0 0 0) ≠ Img.mk "RGB" 2 3 (.source 0) := by
  decide

/-- C10 (amended): `resize_image` returns its input unchanged whenever
resizing is disabled or a target dimension is non-positive; for an
unrecognized mode string it returns the input converted to RGBA — which
is the unchanged input only when the input is already RGBA. -/
theorem resize_image_identity_cases (img : Img) (enable : Bool) (w h : ℤ)
    (mode bg_mode : String) (c : RGBATuple) :
    ((enable = false ∨ w ≤ 0 ∨ h ≤ 0) →
      resize_image img enable w h mode bg_mode c = img) ∧
    (enable = true → 0 < w → 0 < h → mode ≠ "stretch" →
      mode ≠ "keep_aspect_pad" → mode ≠ "keep_aspect_crop" →
      resize_image img enable w h mode bg_mode c =
        (if img.mode ≠ "RGBA" then img.convert "RGBA" else img)) := by
  constructor
  · intro hcond
    rw [resize_image, if_pos hcond]
  · intro he hw hh h1 h2 h3
    subst he
    have hcond : ¬ (true = false ∨ w ≤ 0 ∨ h ≤ 0) := by
      push_neg
      exact ⟨by decide, hw, hh⟩
    rw [resize_image, if_neg hcond, if_neg h1]
    simp only [if_neg h2, if_neg h3]

theorem resize_image_identity_cases_witness :
    resize_image (Img.mk "RGBA" 2 3 (.source 0)) true 5 5 "bogus" "transparent"
      (RGBATuple.mk 0 0 0 0) = Img.mk "RGBA" 2 3 (.source 0) := by
  have h := (resize_image_identity_cases (Img.mk "RGBA" 2 3 (.source 0)) true
    5 5 "bogus" "transparent" (RGBATuple.mk 0 0 0 0)).2 rfl (by norm_num)
    (by norm_num) (by decide) (by decide) (by decide)
  simpa using h

theorem runBatch_append (openImage : FPath → Except String Img)
    (in_root out_root : List String) (p : ProcParams) (xs ys : List FPath) :
    runBatch openImage in_root out_root p (xs ++ ys) =
      ((runBatch openImage in_root out_root p xs).1 +
        (runBatch openImage in_root out_root p ys).1,
       (runBatch openImage in_root out_root p xs).2 ++
        (runBatch openImage in_root out_root p ys).2) := by
  induction xs with
  | nil => simp [runBatch]
  | cons ip rest ih =>
    simp only [List.cons_append, runBatch, ih]
    by_cases hok : (process_one openImage ip in_root out_root p).2.2.1 = true
    · simp [hok, Prod.ext_iff, ih]
      omega
    · simp [hok, Prod.ext_iff, ih]

/-- C2: if an exception is raised while handling a file, `process_one`
returns `(in_path, Path(), False, str(e))` — the failure tuple carries
the offending input path and the exception's text — and the batch loop
records the failure and still processes every remaining file. -/
theorem process_one_failure_recorded
    (openImage : FPath → Except String Img) (in_root out_root : List String)
    (p : ProcParams) (xs ys : List FPath) (bad : FPath) (e : String)
    (hbad : procOneBody openImage bad in_root out_root p = .error e) :
    process_one openImage bad in_root out_root p = (bad, emptyFPath, false, e) ∧
    runBatch openImage in_root out_root p (xs ++ bad :: ys) =
      ((runBatch openImage in_root out_root p xs).1 +
        (runBatch openImage in_root out_root p ys).1,
       (runBatch openImage in_root out_root p xs).2 ++
        (bad, e) :: (runBatch openImage in_root out_root p ys).2) := by
  have hpo : process_one openImage bad in_root out_root p =
      (bad, emptyFPath, false, e) := by
    unfold process_one
    rw [hbad]
  refine ⟨hpo, ?_⟩
  rw [runBatch_append]
  have hbadrun : runBatch openImage in_root out_root p (bad :: ys) =
      ((runBatch openImage in_root out_root p ys).1,
       (bad, e) :: (runBatch openImage in_root out_root p ys).2) := by
    simp [runBatch, hpo]
  rw [hbadrun]

theorem process_one_failure_recorded_witness :
    process_one (fun _ => Except.error "cannot identify image file")
      (FPath.mk [] "a" ".png") [] []
      (ProcParams.mk "bg_only" "transparent" (RGBATuple.mk 0 0 0 0) 0 false
        none true 1 false 0 0 "keep_aspect_pad") =
      (FPath.mk [] "a" ".png", emptyFPath, false, "cannot identify image file") :=
  (process_one_failure_recorded (fun _ => Except.error "cannot identify image file")
    [] [] (ProcParams.mk "bg_only" "transparent" (RGBATuple.mk 0 0 0 0) 0 false
      none true 1 false 0 0 "keep_aspect_pad") [] [] (FPath.mk [] "a" ".png")
    "cannot identify image file" rfl).1

theorem padStep_width (pad : Nat) (o : Img) :
    (padStep pad o).width = o.width + 2 * pad := by
  unfold padStep
  split_ifs with hp
  · rfl
  · omega

theorem padStep_height (pad : Nat) (o : Img) :
    (padStep pad o).height = o.height + 2 * pad := by
  unfold padStep
  split_ifs with hp
  · rfl
  · omega

theorem compositeBackground_transparent (c : RGBATuple) (o : Img) :
    compositeBackground "transparent" c o = o := rfl

/-- C1: with resizing enabled and positive targets, all three fit modes
produce exactly the requested (W, H): stretch scales directly; pad
builds a (W, H) canvas and pastes into it; crop takes a (W, H) crop. -/
theorem resize_image_hits_target (img : Img) (w h : ℤ) (bg_mode : String)
    (c : RGBATuple) (hw : 0 < w) (hh : 0 < h)
    (_hiw : 0 < img.width) (_hih : 0 < img.height) :
    ((resize_image img true w h "stretch" bg_mode c).width = w.toNat ∧
     (resize_image img true w h "stretch" bg_mode c).height = h.toNat) ∧
    ((resize_image img true w h "keep_aspect_pad" bg_mode c).width = w.toNat ∧
     (resize_image img true w h "keep_aspect_pad" bg_mode c).height = h.toNat) ∧
    ((resize_image img true w h "keep_aspect_crop" bg_mode c).width = w.toNat ∧
     (resize_image img true w h "keep_aspect_crop" bg_mode c).height = h.toNat) := by
  have hcond : ¬ (true = false ∨ w ≤ 0 ∨ h ≤ 0) := by
    push_neg
    exact ⟨by decide, hw, hh⟩
  have hps : ¬ (("keep_aspect_pad" : String) = "stretch") := by decide
  have hcs : ¬ (("keep_aspect_crop" : String) = "stretch") := by decide
  have hcp : ¬ (("keep_aspect_crop" : String) = "keep_aspect_pad") := by decide
  refine ⟨⟨?_, ?_⟩, ⟨?_, ?_⟩, ⟨?_, ?_⟩⟩
  · rw [resize_image, if_neg hcond, if_pos rfl]
    rfl
  · rw [resize_image, if_neg hcond, if_pos rfl]
    rfl
  · simp only [resize_image, if_neg hcond, if_true, if_false, if_neg hps,
      if_pos rfl, Img.paste, make_canvas_width]
  · simp only [resize_image, if_neg hcond, if_true, if_false, if_neg hps,
      if_pos rfl, Img.paste, make_canvas_height]
  · simp only [resize_image, if_neg hcond, if_true, if_false, if_neg hcs,
      if_neg hcp]
    split_ifs <;> simp only [Img.convert, Img.crop, Img.resize] <;>
      rw [add_sub_cancel_left]
  · simp only [resize_image, if_neg hcond, if_true, if_false, if_neg hcs,
      if_neg hcp]
    split_ifs <;> simp only [Img.convert, Img.crop, Img.resize] <;>
      rw [add_sub_cancel_left]

theorem resize_image_hits_target_witness :
    (resize_image (Img.mk "RGB" 4 2 (.source 0)) true 2 2 "keep_aspect_crop"
      "transparent" (RGBATuple.mk 0 0 0 0)).width = (2 : ℤ).toNat :=
  (resize_image_hits_target (Img.mk "RGB" 4 2 (.source 0)) 2 2 "transparent"
    (RGBATuple.mk 0 0 0 0) (by norm_num) (by norm_num) (by decide)
    (by decide)).2.2.1

theorem pyRound_natCast (n : Nat) : pyRound (n : ℚ) = n := by
  have h := pyRound_intCast (n : ℤ)
  rwa [Int.cast_natCast] at h

theorem convertIf_width (img : Img) :
    (if img.mode ≠ "RGBA" then img.convert "RGBA" else img).width = img.width := by
  split_ifs <;> rfl

theorem convertIf_height (img : Img) :
    (if img.mode ≠ "RGBA" then img.convert "RGBA" else img).height = img.height := by
  split_ifs <;> rfl

theorem squareFixed_fits (o : Img) (s : Nat) (hw : 0 < o.width)
    (hh : 0 < o.height) (hfit : o.width ≤ s ∧ o.height ≤ s) :
    squareFixed s true o =
      (imageNew "RGBA" s s [0, 0, 0, 0]).paste o
        (((s : ℤ) - (o.width : ℤ)).fdiv 2)
        (((s : ℤ) - (o.height : ℤ)).fdiv 2) true := by
  have hw0 : (0 : ℚ) < (o.width : ℚ) := by exact_mod_cast hw
  have hh0 : (0 : ℚ) < (o.height : ℚ) := by exact_mod_cast hh
  have h1 : (1 : ℚ) ≤ (s : ℚ) / (o.width : ℚ) := by
    rw [le_div_iff₀ hw0]
    simpa using (by exact_mod_cast hfit.1 : (o.width : ℚ) ≤ (s : ℚ))
  have h2 : (1 : ℚ) ≤ (s : ℚ) / (o.height : ℚ) := by
    rw [le_div_iff₀ hh0]
    simpa using (by exact_mod_cast hfit.2 : (o.height : ℚ) ≤ (s : ℚ))
  have hcond : ¬ (min ((s : ℚ) / (o.width : ℚ)) ((s : ℚ) / (o.height : ℚ)) < 1 ∨
      (1 < min ((s : ℚ) / (o.width : ℚ)) ((s : ℚ) / (o.height : ℚ)) ∧
        (true = false))) := by
    rintro (hlt | ⟨-, hfalse⟩)
    · exact absurd hlt (not_lt.mpr (le_min h1 h2))
    · exact absurd hfalse (by decide)
  simp only [squareFixed]
  rw [if_neg hcond]

theorem squareFixed_exceeds (o : Img) (s : Nat) (hs : 0 < s) (hw : 0 < o.width)
    (hh : 0 < o.height) (hexc : ¬ (o.width ≤ s ∧ o.height ≤ s)) :
    ∃ nw nh : Nat,
      nw = max 1 (pyRound ((o.width : ℚ) *
        min ((s : ℚ) / (o.width : ℚ)) ((s : ℚ) / (o.height : ℚ)))).toNat ∧
      nh = max 1 (pyRound ((o.height : ℚ) *
        min ((s : ℚ) / (o.width : ℚ)) ((s : ℚ) / (o.height : ℚ)))).toNat ∧
      1 ≤ nw ∧ nw ≤ s ∧ 1 ≤ nh ∧ nh ≤ s ∧
      squareFixed s true o =
        (imageNew "RGBA" s s [0, 0, 0, 0]).paste (o.resize nw nh)
          (((s : ℤ) - (nw : ℤ)).fdiv 2) (((s : ℤ) - (nh : ℤ)).fdiv 2) true := by
  have hw0 : (0 : ℚ) < (o.width : ℚ) := by exact_mod_cast hw
  have hh0 : (0 : ℚ) < (o.height : ℚ) := by exact_mod_cast hh
  have hs1 : 1 ≤ s := hs
  set sc : ℚ := min ((s : ℚ) / (o.width : ℚ)) ((s : ℚ) / (o.height : ℚ)) with hsc
  have hexc2 : s < o.width ∨ s < o.height := by
    rcases Nat.lt_or_ge s o.width with h | h
    · exact Or.inl h
    · rcases Nat.lt_or_ge s o.height with h2 | h2
      · exact Or.inr h2
      · exact absurd ⟨h, h2⟩ hexc
  have hlt : sc < 1 := by
    rcases hexc2 with h | h
    · exact lt_of_le_of_lt (min_le_left _ _)
        ((div_lt_one hw0).mpr (by exact_mod_cast h))
    · exact lt_of_le_of_lt (min_le_right _ _)
        ((div_lt_one hh0).mpr (by exact_mod_cast h))
  have hcw : (o.width : ℚ) * ((s : ℚ) / (o.width : ℚ)) = (s : ℚ) := by
    field_simp
  have hch : (o.height : ℚ) * ((s : ℚ) / (o.height : ℚ)) = (s : ℚ) := by
    field_simp
  have hbw : (o.width : ℚ) * sc ≤ (s : ℚ) := by
    calc (o.width : ℚ) * sc ≤ (o.width : ℚ) * ((s : ℚ) / (o.width : ℚ)) :=
          mul_le_mul_of_nonneg_left (min_le_left _ _) (le_of_lt hw0)
      _ = (s : ℚ) := hcw
  have hbh : (o.height : ℚ) * sc ≤ (s : ℚ) := by
    calc (o.height : ℚ) * sc ≤ (o.height : ℚ) * ((s : ℚ) / (o.height : ℚ)) :=
          mul_le_mul_of_nonneg_left (min_le_right _ _) (le_of_lt hh0)
      _ = (s : ℚ) := hch
  have hrw : pyRound ((o.width : ℚ) * sc) ≤ (s : ℤ) := by
    apply pyRound_le
    push_cast
    exact hbw
  have hrh : pyRound ((o.height : ℚ) * sc) ≤ (s : ℤ) := by
    apply pyRound_le
    push_cast
    exact hbh
  have hnw_le : (pyRound ((o.width : ℚ) * sc)).toNat ≤ s := Int.toNat_le.mpr hrw
  have hnh_le : (pyRound ((o.height : ℚ) * sc)).toNat ≤ s := Int.toNat_le.mpr hrh
  have hguard : (max 1 (pyRound ((o.width : ℚ) * sc)).toNat,
      max 1 (pyRound ((o.height : ℚ) * sc)).toNat) ≠ (o.width, o.height) := by
    rcases le_total o.height o.width with hcase | hcase
    · have hdiv : (s : ℚ) / (o.width : ℚ) ≤ (s : ℚ) / (o.height : ℚ) := by
        rw [div_le_div_iff₀ hw0 hh0]
        exact mul_le_mul_of_nonneg_left (by exact_mod_cast hcase) (by positivity)
      have hscw : sc = (s : ℚ) / (o.width : ℚ) := by
        rw [hsc]
        exact min_eq_left hdiv
      have hnu : max 1 (pyRound ((o.width : ℚ) * sc)).toNat = s := by
        rw [hscw, hcw, pyRound_natCast, Int.toNat_natCast]
        exact max_eq_right hs1
      have hws : s < o.width := by
        rcases hexc2 with h | h
        · exact h
        · exact lt_of_lt_of_le h hcase
      intro hpair
      rw [Prod.mk.injEq] at hpair
      rw [hnu] at hpair
      omega
    · have hdiv : (s : ℚ) / (o.height : ℚ) ≤ (s : ℚ) / (o.width : ℚ) := by
        rw [div_le_div_iff₀ hh0 hw0]
        exact mul_le_mul_of_nonneg_left (by exact_mod_cast hcase) (by positivity)
      have hsch : sc = (s : ℚ) / (o.height : ℚ) := by
        rw [hsc]
        exact min_eq_right hdiv
      have hnu : max 1 (pyRound ((o.height : ℚ) * sc)).toNat = s := by
        rw [hsch, hch, pyRound_natCast, Int.toNat_natCast]
        exact max_eq_right hs1
      have hhs : s < o.height := by
        rcases hexc2 with h | h
        · exact lt_of_lt_of_le h hcase
        · exact h
      intro hpair
      rw [Prod.mk.injEq] at hpair
      rw [hnu] at hpair
      omega
  refine ⟨_, _, rfl, rfl, le_max_left _ _, max_le hs1 hnw_le,
    le_max_left _ _, max_le hs1 hnh_le, ?_⟩
  simp only [squareFixed]
  rw [← hsc]
  rw [if_pos (show sc < 1 ∨ (1 < sc ∧ (true = false)) from Or.inl hlt)]
  rw [if_pos (show sc < 1 ∨ (true = false) from Or.inl hlt)]
  rw [if_pos hguard]
  rfl

/-- C3: with square mode on, a fixed positive `square_size`, and the
downscale-only constraint set, `remove_bg_and_square` never enlarges the
subject: an image that already fits within the target is pasted
unscaled, an image that exceeds it is uniformly downscaled to fit
(both scaled dimensions end up at most the target), and in both cases
the result is a square-size canvas with the subject centered at offsets
((target - w) // 2, (target - h) // 2). -/
theorem remove_bg_and_square_downscale_only (img : Img) (c : RGBATuple)
    (pad s : Nat) (hs : 0 < s) (hw : 0 < img.width) (hh : 0 < img.height) :
    (remove_bg_and_square img "transparent" c pad true (some s) true).width = s ∧
    (remove_bg_and_square img "transparent" c pad true (some s) true).height = s ∧
    (let pre := padStep pad (rembgRemove
        (if img.mode ≠ "RGBA" then img.convert "RGBA" else img))
     (pre.width ≤ s ∧ pre.height ≤ s →
        remove_bg_and_square img "transparent" c pad true (some s) true =
          (imageNew "RGBA" s s [0, 0, 0, 0]).paste pre
            (((s : ℤ) - (pre.width : ℤ)).fdiv 2)
            (((s : ℤ) - (pre.height : ℤ)).fdiv 2) true) ∧
     (¬ (pre.width ≤ s ∧ pre.height ≤ s) →
        ∃ nw nh : Nat,
          nw = max 1 (pyRound ((pre.width : ℚ) *
            min ((s : ℚ) / (pre.width : ℚ)) ((s : ℚ) / (pre.height : ℚ)))).toNat ∧
          nh = max 1 (pyRound ((pre.height : ℚ) *
            min ((s : ℚ) / (pre.width : ℚ)) ((s : ℚ) / (pre.height : ℚ)))).toNat ∧
          1 ≤ nw ∧ nw ≤ s ∧ 1 ≤ nh ∧ nh ≤ s ∧
          remove_bg_and_square img "transparent" c pad true (some s) true =
            (imageNew "RGBA" s s [0, 0, 0, 0]).paste (pre.resize nw nh)
              (((s : ℤ) - (nw : ℤ)).fdiv 2)
              (((s : ℤ) - (nh : ℤ)).fdiv 2) true)) := by
  have hkey : remove_bg_and_square img "transparent" c pad true (some s) true =
      squareFixed s true (padStep pad (rembgRemove
        (if img.mode ≠ "RGBA" then img.convert "RGBA" else img))) := by
    rw [remove_bg_and_square_eq, compositeBackground_transparent]
    simp only [squareStep, if_true]
    rw [if_pos hs]
  have hpreb : (rembgRemove (if img.mode ≠ "RGBA" then img.convert "RGBA"
      else img)).width = img.width := convertIf_width img
  have hprebh : (rembgRemove (if img.mode ≠ "RGBA" then img.convert "RGBA"
      else img)).height = img.height := convertIf_height img
  have hpw : 0 < (padStep pad (rembgRemove
      (if img.mode ≠ "RGBA" then img.convert "RGBA" else img))).width := by
    rw [padStep_width, hpreb]
    omega
  have hph : 0 < (padStep pad (rembgRemove
      (if img.mode ≠ "RGBA" then img.convert "RGBA" else img))).height := by
    rw [padStep_height, hprebh]
    omega
  refine ⟨?_, ?_, fun hfit => ?_, fun hexc => ?_⟩
  · rw [hkey, squareFixed_width]
  · rw [hkey, squareFixed_height]
  · rw [hkey]
    exact squareFixed_fits _ s hpw hph hfit
  · rw [hkey]
    exact squareFixed_exceeds _ s hs hpw hph hexc

theorem remove_bg_and_square_downscale_only_witness :
    (remove_bg_and_square (Img.mk "RGB" 4 2 (.source 0)) "transparent"
      (RGBATuple.mk 0 0 0 0) 0 true (some 2) true).width = 2 :=
  (remove_bg_and_square_downscale_only (Img.mk "RGB" 4 2 (.source 0))
    (RGBATuple.mk 0 0 0 0) 0 2 (by decide) (by decide) (by decide)).1
